import Mathlib

/-!
Verification of the configuration module `app/config.py` of the
edtechhub-evidence-library-kerko repository.

Python strings are embedded as `List Char`.  The regular expressions of the
source are MULTILINE patterns of the shape `^ LITERALS-AND-\s* ... $`
applied to the whole multi-line Extra text.  With `re.MULTILINE`, `^`
matches at the start of the text and after every newline and `$` matches at
the end of the text and before every newline, while `.` and `\S` never
match a newline; `\s`, however, DOES match a newline, so a single match
may span line breaks (for instance the `\s*` after the colon of
`KerkoCite.ItemAlsoKnownAs\s*:\s*(.*)$` can consume a newline, making the
captured value the text of a following line).  Because every `\s*` in
these patterns is followed by a non-whitespace literal (or by `(.*)$` /
`(\S+)`, for which greediness is decisive), the patterns match
deterministically without backtracking, and `re.finditer` is embedded as a
scanner that attempts the pattern at each line start in order, emitting the
capture of each (non-overlapping) match and resuming at the line following
the match end.
-/

/-- Python's `\s` character class, restricted to ASCII (all the patterns of
the source are ASCII). -/
def isSpace (c : Char) : Bool :=
  c = ' ' || c = '\t' || c = '\n' || c = '\r' || c = '\x0b' || c = '\x0c'

/-- Complement of `isSpace`, Python's `\S`. -/
def nonSpace (c : Char) : Bool :=
  !(isSpace c)

/-- Case-insensitive literal matching: strip a (lowercase) literal pattern
from the front of a string, comparing characters after `Char.toLower`, as
`re.IGNORECASE` does for the ASCII literals used in the source.  Returns the
remainder on success. -/
def stripCI : List Char → List Char → Option (List Char)
  | [], s => Option.some s
  | _ :: _, [] => Option.none
  | p :: ps, c :: cs => if c.toLower = p then stripCI ps cs else Option.none

/-- Python's `str.split(sep)` for a one-character separator: split at every
occurrence of the separator, keeping empty pieces. -/
def splitOnChar (sep : Char) : List Char → List (List Char)
  | [] => [[]]
  | c :: cs =>
    if c = sep then [] :: splitOnChar sep cs
    else (splitOnChar sep cs).modifyHead (fun r => c :: r)

/-- The lines of a text, as Python's MULTILINE regex machinery sees them. -/
def textLines (text : List Char) : List (List Char) :=
  splitOnChar '\n' text

/-- The form of a single line that the claims describe as
`<tag>.ItemAlsoKnownAs: <value>` (for a whole line, this coincides with the
pattern `^\s*<tag>.ItemAlsoKnownAs\s*:\s*(.*)$` restricted to that line):
optional whitespace, the literal tag case-insensitively, one arbitrary
character for the unescaped `.`, the literal `ItemAlsoKnownAs`
case-insensitively, optional whitespace, a colon, then the value (from the
first non-whitespace character after the colon to the end of the line).
Intended for newline-free lines; the program's matcher over the whole text
is `tryTagMatch` below. -/
def tagLineMatch (tag : List Char) (line : List Char) : Option (List Char) :=
  match stripCI tag (line.dropWhile isSpace) with
  | Option.none => Option.none
  | Option.some r1 =>
    match r1 with
    | [] => Option.none
    | _ :: r2 =>
      match stripCI ("itemalsoknownas".toList) r2 with
      | Option.none => Option.none
      | Option.some r3 =>
        match r3.dropWhile isSpace with
        | [] => Option.none
        | a :: r5 => if a = ':' then Option.some (r5.dropWhile isSpace) else Option.none

/-- A line of the `EdTechHub.ItemAlsoKnownAs: <value>` form. -/
def edTechHubLineMatch : List Char → Option (List Char) :=
  tagLineMatch ("edtechhub".toList)

/-- A line of the `KerkoCite.ItemAlsoKnownAs: <value>` form. -/
def kerkoCiteLineMatch : List Char → Option (List Char) :=
  tagLineMatch ("kerkocite".toList)

/-- The `(\S+)\s*$` tail of the `shortDOI` pattern restricted to a single
line: the rest of the line must be one non-empty run of non-whitespace
characters (captured), followed only by whitespace. -/
def tokenCheck (r4 : List Char) : Option (List Char) :=
  if (r4.takeWhile nonSpace).isEmpty then Option.none
  else if (r4.dropWhile nonSpace).all isSpace then Option.some (r4.takeWhile nonSpace)
  else Option.none

/-- The `:\s*(\S+)\s*$` tail of the `shortDOI` pattern restricted to a
single line: a colon, optional whitespace, then the captured token. -/
def colonCheck : List Char → Option (List Char)
  | [] => Option.none
  | a :: r3 => if a = ':' then tokenCheck (r3.dropWhile isSpace) else Option.none

/-- The form of a single line the claims describe as `shortDOI: <t>` (the
pattern `^\s*shortDOI\s*:\s*(\S+)\s*$` restricted to that line):
optional whitespace, the literal `shortDOI` case-insensitively, optional
whitespace, a colon, optional whitespace, then exactly one non-empty run
of non-whitespace characters (captured), then optional whitespace up to
the end of the line.  Intended for newline-free lines; the program's
matcher over the whole text is `tryShortDOI` below. -/
def shortDOIMatch (line : List Char) : Option (List Char) :=
  (stripCI ("shortdoi".toList) (line.dropWhile isSpace)).bind
    (fun r1 => colonCheck (r1.dropWhile isSpace))

/-- `c` is not a newline (the characters Python's `.` and the MULTILINE `$`
treat specially). -/
def notNl (c : Char) : Bool :=
  !(c = '\n')

/-- Drop everything up to and including the first newline; `none` when the
text has no newline (there is no further line to scan). -/
def nextLine : List Char → Option (List Char)
  | [] => Option.none
  | c :: cs => if c = '\n' then Option.some cs else nextLine cs

/-- The suffix starting at the LAST newline of the list (inclusive), or
`none` when the list contains no newline.  Used for the MULTILINE `\s*$`:
a greedy whitespace run followed by more text satisfies `$` at the latest
position just before its last newline. -/
def afterLastNewline : List Char → Option (List Char)
  | [] => Option.none
  | c :: cs =>
    match afterLastNewline cs with
    | Option.some r => Option.some r
    | Option.none => if c = '\n' then Option.some (c :: cs) else Option.none

/-- One attempt of the pattern `^\s*<tag>.ItemAlsoKnownAs\s*:\s*(.*)$`
(flags `IGNORECASE | MULTILINE`) at a line start of the whole text: each
`\s*` greedily consumes a maximal whitespace run (possibly crossing
newlines — the following character is a non-whitespace literal, so no
backtracking can occur), the unescaped `.` matches one non-newline
character, and `(.*)$` captures from the first non-whitespace character
after the colon to the end of that character's line.  On success, returns
the capture and the text after the match end (which is a line end). -/
def tryTagMatch (tag : List Char) (text : List Char) : Option (List Char × List Char) :=
  match stripCI tag (text.dropWhile isSpace) with
  | Option.none => Option.none
  | Option.some r1 =>
    match r1 with
    | [] => Option.none
    | d :: r2 =>
      if d = '\n' then Option.none
      else
        match stripCI ("itemalsoknownas".toList) r2 with
        | Option.none => Option.none
        | Option.some r3 =>
          match r3.dropWhile isSpace with
          | [] => Option.none
          | a :: r5 =>
            if a = ':' then
              Option.some ((r5.dropWhile isSpace).takeWhile notNl,
                (r5.dropWhile isSpace).dropWhile notNl)
            else Option.none

/-- The whole-text `EdTechHub.ItemAlsoKnownAs` pattern (config.py line 120). -/
def tryEdTechHub : List Char → Option (List Char × List Char) :=
  tryTagMatch ("edtechhub".toList)

/-- The whole-text `KerkoCite.ItemAlsoKnownAs` pattern (config.py line 133). -/
def tryKerkoCite : List Char → Option (List Char × List Char) :=
  tryTagMatch ("kerkocite".toList)

/-- The MULTILINE `\s*$` after the `shortDOI` token, on the whole text:
the greedy whitespace run after the token either reaches the end of the
text (match ends there), or must contain a newline, the match ending just
before the last newline of the run; otherwise the attempt fails.  Returns
the text after the match end. -/
def tailCheck (rest : List Char) : Option (List Char) :=
  if rest.dropWhile isSpace = [] then Option.some []
  else
    match afterLastNewline (rest.takeWhile isSpace) with
    | Option.some tl => Option.some (tl ++ rest.dropWhile isSpace)
    | Option.none => Option.none

/-- The `(\S+)\s*$` tail of the `shortDOI` pattern on the whole text. -/
def tokenCheckWhole (r4 : List Char) : Option (List Char × List Char) :=
  if (r4.takeWhile nonSpace).isEmpty then Option.none
  else
    match tailCheck (r4.dropWhile nonSpace) with
    | Option.some rest => Option.some (r4.takeWhile nonSpace, rest)
    | Option.none => Option.none

/-- The `:\s*(\S+)\s*$` tail of the `shortDOI` pattern on the whole
text; the `\s*` after the colon may cross newlines. -/
def colonCheckWhole : List Char → Option (List Char × List Char)
  | [] => Option.none
  | a :: r3 => if a = ':' then tokenCheckWhole (r3.dropWhile isSpace) else Option.none

/-- One attempt of the pattern `^\s*shortDOI\s*:\s*(\S+)\s*$` (flags
`IGNORECASE | MULTILINE`) at a line start of the whole text.  Every `\s*`
may cross newlines; `\S+` cannot.  On success, returns the captured token
and the text after the match end. -/
def tryShortDOI (text : List Char) : Option (List Char × List Char) :=
  (stripCI ("shortdoi".toList) (text.dropWhile isSpace)).bind
    (fun r1 => colonCheckWhole (r1.dropWhile isSpace))

/-- `re.finditer` over the whole text for the line-anchored patterns above:
attempt the pattern at the current line start; on success, emit the capture
and resume at the line following the match end; on failure, move to the
next line start.  The fuel is an upper bound on the number of steps; every
step consumes at least one character, so `text.length + 1` suffices. -/
def reMatches (tryM : List Char → Option (List Char × List Char)) :
    Nat → List Char → List (List Char)
  | 0, _ => []
  | fuel + 1, text =>
    match tryM text with
    | Option.some (cap, rest) =>
      cap ::
        (match nextLine rest with
         | Option.some r => reMatches tryM fuel r
         | Option.none => [])
    | Option.none =>
      match nextLine text with
      | Option.some r => reMatches tryM fuel r
      | Option.none => []

/-- The list of group-1 captures of all matches of the pattern in the
text, in order. -/
def findAllCaptures (tryM : List Char → Option (List Char × List Char))
    (text : List Char) : List (List Char) :=
  reMatches tryM (text.length + 1) text

/-- Modelled from the spec: kerko's `transformers.find(regex, flags,
max_matches)` (the kerko library is an external dependency, not part of the
repository sources).  It returns the list of group-1 captures of all the
matches of the regex in the whole value, in order, truncated to
`max_matches` matches when `max_matches` is non-zero. -/
def findMatches (tryM : List Char → Option (List Char × List Char))
    (maxMatches : Nat) (text : List Char) : List (List Char) :=
  if maxMatches = 0 then findAllCaptures tryM text
  else (findAllCaptures tryM text).take maxMatches

/-- Modelled from the spec: kerko's `transformers.split(sep)` (external
dependency), applied to the list of strings produced by a `find`
transformer: each string is split on the separator and the results are
concatenated in order. -/
def splitValues (sep : Char) (values : List (List Char)) : List (List Char) :=
  values.flatMap (splitOnChar sep)

/-- The `EdTechHub.ItemAlsoKnownAs` extractor appended to the `alternateId`
field: `find` with `max_matches=1` followed by `split(sep=';')`
(config.py lines 115-127). -/
def edTechHubAltIds (extra : List Char) : List (List Char) :=
  splitValues ';' (findMatches tryEdTechHub 1 extra)

/-- The `KerkoCite.ItemAlsoKnownAs` extractor appended to the `alternateId`
field: `find` with `max_matches=1` followed by `split(sep=' ')`
(config.py lines 128-140). -/
def kerkoCiteAltIds (extra : List Char) : List (List Char) :=
  splitValues ' ' (findMatches tryKerkoCite 1 extra)

/-- The `shortDOI` extractor appended to the `alternateId` field: `find`
with `max_matches=0` (no limit) and no further transformer
(config.py lines 141-152). -/
def shortDOIAltIds (extra : List Char) : List (List Char) :=
  findMatches tryShortDOI 0 extra

/-- Suffix test on `List Char`. -/
def hasSuffix (suf v : List Char) : Bool :=
  suf.reverse.isPrefixOf v.reverse

/-- Drop the last `n` characters. -/
def dropLastN (n : Nat) (v : List Char) : List Char :=
  (v.reverse.drop n).reverse

/-- First transformer of the `preview` field:
`re.sub(r'^<span>', '<div class="csl-entry">', value, count=1)`
(config.py line 107).  Without `re.MULTILINE`, `^` matches only at the very
start of the string, so at most the leading `<span>` is replaced. -/
def subSpanOpen (v : List Char) : List Char :=
  if ("<span>".toList).isPrefixOf v then "<div class=\"csl-entry\">".toList ++ v.drop 6
  else v

/-- Second transformer of the `preview` field:
`re.sub(r'</span>$', '</div>', value, count=1)` (config.py line 108).
Without `re.MULTILINE`, Python's `$` matches at the end of the string _or
just before a newline at the end of the string_, so the pattern matches a
final `</span>` or a `</span>` immediately followed by a string-final
newline; `count=1` replaces that single occurrence. -/
def subSpanClose (v : List Char) : List Char :=
  if hasSuffix ("</span>".toList) v then dropLastN 7 v ++ "</div>".toList
  else if hasSuffix ("</span>\n".toList) v then dropLastN 8 v ++ "</div>\n".toList
  else v

/-- The transformer chain of the `preview` field (config.py lines 106-109),
applied in registration order. -/
def previewTransform (v : List Char) : List Char :=
  subSpanClose (subSpanOpen v)

/-- A Python value stored for an item, as the badge activator sees it:
`item.get(key)` returns `None` when the key is absent.  `truthy` is
Python's `bool(...)`. -/
inductive PyVal where
  | none
  | bool (b : Bool)
  | str (s : List Char)
  | int (n : Int)
deriving DecidableEq

/-- Python truthiness (`bool(x)`) for the embedded values. -/
def PyVal.truthy : PyVal → Bool
  | PyVal.none => false
  | PyVal.bool b => b
  | PyVal.str s => !s.isEmpty
  | PyVal.int n => n != 0

/-- A `kerko.specs.CollectionFacetSpec` as constructed in config.py:
only the arguments the source passes are modelled. -/
structure CollectionFacetSpec where
  key : String
  filterKey : String
  title : String
  weight : Nat
  collectionKey : String
deriving DecidableEq, Repr

/-- A facet registered with the composer: either a collection facet added
by config.py, or one of the kerko library's built-in default facets
(identified by its key). -/
inductive FacetSpec where
  | collection (spec : CollectionFacetSpec)
  | builtin (key : String)
deriving DecidableEq, Repr

/-- The key of a facet. -/
def FacetSpec.facetKey : FacetSpec → String
  | FacetSpec.collection c => c.key
  | FacetSpec.builtin k => k

/-- Whether a facet is a collection facet. -/
def FacetSpec.isCollection : FacetSpec → Bool
  | FacetSpec.collection _ => true
  | FacetSpec.builtin _ => false

/-- The Zotero collection key of a collection facet. -/
def FacetSpec.collectionKey? : FacetSpec → Option String
  | FacetSpec.collection c => Option.some c.collectionKey
  | FacetSpec.builtin _ => Option.none

/-- Modelled from the spec: the kerko Composer's built-in default facets,
which config.py names in its `exclude_default_facets` argument
(config.py line 73). -/
def kerkoDefaultFacets : List FacetSpec :=
  [FacetSpec.builtin "facet_tag", FacetSpec.builtin "facet_link",
   FacetSpec.builtin "facet_item_type"]

/-- The `exclude_default_facets` argument of the Composer (config.py line 73). -/
def excludeDefaultFacets : List String :=
  ["facet_tag", "facet_link", "facet_item_type"]

/-- The facets the Composer holds right after construction: the built-in
defaults minus the excluded ones. -/
def composerInitFacets : List FacetSpec :=
  kerkoDefaultFacets.filter (fun f => !(excludeDefaultFacets.contains f.facetKey))

/-- The twelve collection facets added by `KERKO_COMPOSER.add_facet`
(config.py lines 155-284), in registration order, appended to the
composer's initial facets. -/
def facetList : List FacetSpec :=
  composerInitFacets ++
  [FacetSpec.collection
     { key := "facet_learners", filterKey := "learners", title := "Learners",
       weight := 10, collectionKey := "WZXRTV9N" },
   FacetSpec.collection
     { key := "facet_educators", filterKey := "educators", title := "Educators",
       weight := 20, collectionKey := "MS38G6YW" },
   FacetSpec.collection
     { key := "facet_education_systems", filterKey := "education_systems",
       title := "Education systems", weight := 30, collectionKey := "ZN4PI2Z6" },
   FacetSpec.collection
     { key := "facet_cost_effectiveness", filterKey := "cost_effectiveness",
       title := "Cost effectiveness", weight := 40, collectionKey := "SCMAR3ZW" },
   FacetSpec.collection
     { key := "facet_hardware_and_modality", filterKey := "hardware_and_modality",
       title := "Hardware and modality", weight := 50, collectionKey := "CE7P7GJX" },
   FacetSpec.collection
     { key := "facet_educational_level", filterKey := "educational_level",
       title := "Educational level", weight := 60, collectionKey := "B2CQYHX8" },
   FacetSpec.collection
     { key := "facet_within_country_contexts", filterKey := "within_country_contexts",
       title := "Within-country contexts", weight := 70, collectionKey := "KY3HHD5I" },
   FacetSpec.collection
     { key := "facet_language_of_publication", filterKey := "language_of_publication",
       title := "Language of publication", weight := 80, collectionKey := "5WYC9ALL" },
   FacetSpec.collection
     { key := "facet_country", filterKey := "country", title := "Geography",
       weight := 90, collectionKey := "4UP8CZQE" },
   FacetSpec.collection
     { key := "facet_research_method", filterKey := "research_method",
       title := "Research method", weight := 110, collectionKey := "P4WEVZLQ" },
   FacetSpec.collection
     { key := "facet_covid_and_reopening_of_schools",
       filterKey := "covid_and_reopening_of_schools",
       title := "COVID and reopening of schools", weight := 120,
       collectionKey := "TIYLRP8N" },
   FacetSpec.collection
     { key := "facet_featured", filterKey := "featured", title := "Featured publisher",
       weight := 100, collectionKey := "SGAGGGLK" }]

/-- A `kerko.specs.BadgeSpec` as constructed in config.py; the `field`
argument is modelled by the key of the field spec the source passes, and
the activator is the function the source passes,
`lambda field, item: bool(item.get(field.key))`, taking the field key and
the item. -/
structure BadgeSpec where
  key : String
  field : String
  activator : String → (String → PyVal) → Bool
  weight : Nat

/-- The `edtechhub` badge registered with `KERKO_COMPOSER.add_badge`
(config.py lines 294-304). -/
def edtechhubBadge : BadgeSpec :=
  { key := "edtechhub", field := "edtechhub",
    activator := fun fieldKey item => (item fieldKey).truthy,
    weight := 100 }

/-- A `kerko.specs.SortSpec` as constructed in config.py; the `fields`
argument is modelled by the list of keys of the field specs the source
passes. -/
structure SortSpec where
  key : String
  label : String
  weight : Nat
  fieldKeys : List String
  reverse : List Bool
deriving DecidableEq, Repr

/-- The `hub_desc` sort registered with `KERKO_COMPOSER.add_sort`
(config.py lines 316-334). -/
def hubDescSort : SortSpec :=
  { key := "hub_desc", label := "EdTech Hub first", weight := 5,
    fieldKeys := ["edtechhub", "sort_date", "sort_creator", "sort_title"],
    reverse := [false, true, false, false] }

/-- The kerko Composer, modelled by its constructor arguments and by the
registrations config.py performs on it.  `fieldKeys` lists the keys of the
fields the composer holds: the library's default fields (of which the model
records the four the source itself references, the `data` default being
excluded by `exclude_default_fields`) followed by the fields added by
`add_field` in registration order.  `alternateIdAppended` records the three
extractors config.py appends to the `alternateId` field's extractor list. -/
structure Composer where
  whooshLanguage : String
  excludeDefaultFacets : List String
  excludeDefaultFields : List String
  defaultChildIncludeRe : String
  defaultChildExcludeRe : String
  fieldKeys : List String
  alternateIdAppended : List (List Char → List (List Char))
  facets : List FacetSpec
  badges : List BadgeSpec
  sorts : List SortSpec

/-- Modelled from the spec: the keys of the kerko Composer's default fields
that the source itself references (`alternateId`, `sort_date`,
`sort_creator`, `sort_title`); the library registers them before config.py
runs. -/
def kerkoDefaultFieldKeys : List String :=
  ["alternateId", "sort_date", "sort_creator", "sort_title"]

/-- `KERKO_COMPOSER` after all registrations of config.py
(lines 71-334) have run. -/
def theComposer : Composer :=
  { whooshLanguage := "en",
    excludeDefaultFacets := excludeDefaultFacets,
    excludeDefaultFields := ["data"],
    defaultChildIncludeRe := "^(_publish|publishPDF)$",
    defaultChildExcludeRe := "",
    fieldKeys := kerkoDefaultFieldKeys ++ ["data", "preview", "edtechhub", "_boost"],
    alternateIdAppended := [edTechHubAltIds, kerkoCiteAltIds, shortDOIAltIds],
    facets := facetList,
    badges := [edtechhubBadge],
    sorts := [hubDescSort] }

/-- `pathlib.Path(p).parent` on POSIX paths.  The `.absolute()` of the
source resolves a relative path against the process working directory; the
model keeps the path as given, since the claims are stated in terms of the
directory of `FLASK_APP`. -/
def parentDir (p : String) : String :=
  match (p.splitOn "/").dropLast with
  | [] => "."
  | ps => String.intercalate "/" ps

/-- The `Config` class of config.py, modelled by its environment-derived
attributes, its constant attributes and its composer.
`LIBSASS_INCLUDES` is omitted: it is built from `__file__`, a property of
the installation location, not of the environment. -/
structure Config where
  app_dir : String
  SECRET_KEY : String
  KERKO_ZOTERO_API_KEY : String
  KERKO_ZOTERO_LIBRARY_ID : String
  KERKO_ZOTERO_LIBRARY_TYPE : String
  KERKO_DATA_DIR : String
  LOGGING_HANDLER : String
  EXPLAIN_TEMPLATE_LOADING : Bool
  BABEL_DEFAULT_LOCALE : String
  KERKO_WHOOSH_LANGUAGE : String
  KERKO_ZOTERO_LOCALE : String
  HOME_URL : String
  HOME_TITLE : String
  HOME_SUBTITLE : String
  ABOUT_URL : String
  ABOUT_TEAM_URL : String
  ABOUT_ADVISORS_URL : String
  TOOLS_DATABASE_URL : String
  BLOG_URL : String
  CONTACT_URL : String
  NAV_TITLE : String
  KERKO_TITLE : String
  KERKO_PRINT_ITEM_LINK : Bool
  KERKO_PRINT_CITATIONS_LINK : Bool
  KERKO_RESULTS_FIELDS : List String
  KERKO_RESULTS_ABSTRACTS : Bool
  KERKO_TEMPLATE_BASE : String
  KERKO_TEMPLATE_LAYOUT : String
  KERKO_TEMPLATE_SEARCH : String
  KERKO_TEMPLATE_SEARCH_ITEM : String
  KERKO_TEMPLATE_ITEM : String
  KERKO_DOWNLOAD_ATTACHMENT_NEW_WINDOW : Bool
  KERKO_RELATIONS_INITIAL_LIMIT : Nat
  KERKO_CSL_STYLE : String
  KERKO_COMPOSER : Composer

/-- Executing the body of the `Config` class (config.py lines 19-334).
The environment is a partial map from variable names to values (the model
of the process environment merged with the `.env` file read by
`env.read_env()`).  `env.str(name)` without a default raises an
`environs` error as soon as `name` is unset, so the construction is
sequential and fails fast; `env.str('KERKO_DATA_DIR', default)` is the one
call with a fallback. -/
def mkConfig (e : String → Option String) : Except String Config :=
  match e "FLASK_APP" with
  | Option.none => Except.error "Environment variable not set: FLASK_APP"
  | Option.some flaskApp =>
    match e "SECRET_KEY" with
    | Option.none => Except.error "Environment variable not set: SECRET_KEY"
    | Option.some secretKey =>
      match e "KERKO_ZOTERO_API_KEY" with
      | Option.none => Except.error "Environment variable not set: KERKO_ZOTERO_API_KEY"
      | Option.some apiKey =>
        match e "KERKO_ZOTERO_LIBRARY_ID" with
        | Option.none => Except.error "Environment variable not set: KERKO_ZOTERO_LIBRARY_ID"
        | Option.some libraryId =>
          match e "KERKO_ZOTERO_LIBRARY_TYPE" with
          | Option.none => Except.error "Environment variable not set: KERKO_ZOTERO_LIBRARY_TYPE"
          | Option.some libraryType =>
            Except.ok
              { app_dir := parentDir flaskApp,
                SECRET_KEY := secretKey,
                KERKO_ZOTERO_API_KEY := apiKey,
                KERKO_ZOTERO_LIBRARY_ID := libraryId,
                KERKO_ZOTERO_LIBRARY_TYPE := libraryType,
                KERKO_DATA_DIR :=
                  (e "KERKO_DATA_DIR").getD (parentDir flaskApp ++ "/data/kerko"),
                LOGGING_HANDLER := "default",
                EXPLAIN_TEMPLATE_LOADING := false,
                BABEL_DEFAULT_LOCALE := "en_GB",
                KERKO_WHOOSH_LANGUAGE := "en",
                KERKO_ZOTERO_LOCALE := "en-GB",
                HOME_URL := "https://edtechhub.org/",
                HOME_TITLE := "The EdTech Hub",
                HOME_SUBTITLE := "Research and Innovation to fulfil the potential of EdTech",
                ABOUT_URL := "https://edtechhub.org/about-edtech-hub/",
                ABOUT_TEAM_URL := "https://edtechhub.org/about-edtech-hub/directors-team/",
                ABOUT_ADVISORS_URL := "https://edtechhub.org/about-edtech-hub/advisors/",
                TOOLS_DATABASE_URL := "https://database.edtechhub.org/",
                BLOG_URL := "https://edtechhub.org/blog/",
                CONTACT_URL := "https://edtechhub.org/contact-us/",
                NAV_TITLE := "Evidence Library",
                KERKO_TITLE := "Evidence Library – The EdTech Hub",
                KERKO_PRINT_ITEM_LINK := true,
                KERKO_PRINT_CITATIONS_LINK := true,
                KERKO_RESULTS_FIELDS := ["id", "attachments", "bib", "coins", "data", "preview", "url"],
                KERKO_RESULTS_ABSTRACTS := true,
                KERKO_TEMPLATE_BASE := "app/base.html.jinja2",
                KERKO_TEMPLATE_LAYOUT := "app/layout.html.jinja2",
                KERKO_TEMPLATE_SEARCH := "app/search.html.jinja2",
                KERKO_TEMPLATE_SEARCH_ITEM := "app/search-item.html.jinja2",
                KERKO_TEMPLATE_ITEM := "app/item.html.jinja2",
                KERKO_DOWNLOAD_ATTACHMENT_NEW_WINDOW := true,
                KERKO_RELATIONS_INITIAL_LIMIT := 50,
                KERKO_CSL_STYLE := "https://docs.edtechhub.org/static/dist/csl/eth_apa.xml?202012301815",
                KERKO_COMPOSER := theComposer }

/-- The environment variables the `Config` class reads without a default. -/
def requiredEnvKeys : List String :=
  ["FLASK_APP", "SECRET_KEY", "KERKO_ZOTERO_API_KEY",
   "KERKO_ZOTERO_LIBRARY_ID", "KERKO_ZOTERO_LIBRARY_TYPE"]

/-- All environment variables the `Config` class reads. -/
def configEnvKeys : List String :=
  requiredEnvKeys ++ ["KERKO_DATA_DIR"]

/-- A sample environment that sets exactly the required variables. -/
def envExample : String → Option String := fun k =>
  if k = "FLASK_APP" then Option.some "app/wsgi.py"
  else if k = "SECRET_KEY" then Option.some "s3cret"
  else if k = "KERKO_ZOTERO_API_KEY" then Option.some "apikey"
  else if k = "KERKO_ZOTERO_LIBRARY_ID" then Option.some "123456"
  else if k = "KERKO_ZOTERO_LIBRARY_TYPE" then Option.some "group"
  else Option.none

/-! ## Lemmas about the configuration construction -/

theorem mkConfig_ok_elim {e : String → Option String} {c : Config}
    (h : mkConfig e = Except.ok c) :
    (e "FLASK_APP").isSome = true ∧ (e "SECRET_KEY").isSome = true ∧
    (e "KERKO_ZOTERO_API_KEY").isSome = true ∧
    (e "KERKO_ZOTERO_LIBRARY_ID").isSome = true ∧
    (e "KERKO_ZOTERO_LIBRARY_TYPE").isSome = true ∧
    c.KERKO_COMPOSER = theComposer := by
  unfold mkConfig at h
  split at h
  · exact absurd h (by simp)
  next fa hF =>
    split at h
    · exact absurd h (by simp)
    next sk hS =>
      split at h
      · exact absurd h (by simp)
      next ak hA =>
        split at h
        · exact absurd h (by simp)
        next li hL =>
          split at h
          · exact absurd h (by simp)
          next lt hT =>
            injection h with h'
            exact ⟨by simp [hF], by simp [hS], by simp [hA], by simp [hL],
              by simp [hT], by rw [← h']⟩

/-- Claim C2: for every process environment in which any of `FLASK_APP`,
`SECRET_KEY`, `KERKO_ZOTERO_API_KEY`, `KERKO_ZOTERO_LIBRARY_ID` or
`KERKO_ZOTERO_LIBRARY_TYPE` is unset, loading the configuration module
fails fast with an error and no configuration object is produced. -/
theorem required_env_missing_fails (e : String → Option String)
    (h : e "FLASK_APP" = Option.none ∨ e "SECRET_KEY" = Option.none ∨
      e "KERKO_ZOTERO_API_KEY" = Option.none ∨
      e "KERKO_ZOTERO_LIBRARY_ID" = Option.none ∨
      e "KERKO_ZOTERO_LIBRARY_TYPE" = Option.none) :
    ∃ msg, mkConfig e = Except.error msg := by
  cases hmk : mkConfig e with
  | error msg => exact ⟨msg, rfl⟩
  | ok c =>
    exfalso
    obtain ⟨h1, h2, h3, h4, h5, -⟩ := mkConfig_ok_elim hmk
    rcases h with h | h | h | h | h
    · rw [h] at h1; exact absurd h1 (by simp)
    · rw [h] at h2; exact absurd h2 (by simp)
    · rw [h] at h3; exact absurd h3 (by simp)
    · rw [h] at h4; exact absurd h4 (by simp)
    · rw [h] at h5; exact absurd h5 (by simp)

theorem required_env_missing_fails_witness :
    ∃ msg, mkConfig (fun _ => Option.none) = Except.error msg :=
  required_env_missing_fails (fun _ => Option.none) (Or.inl rfl)

/-- Claim C9: when the required variables are set but `KERKO_DATA_DIR` is
unset, configuration loading succeeds and `KERKO_DATA_DIR` defaults to the
directory of `FLASK_APP` extended with `/data/kerko`; and every other
environment variable of the `Config` base class has no fallback (its
absence makes loading fail). -/
theorem data_dir_default :
    (∀ (e : String → Option String) fa sk ak li lt,
      e "FLASK_APP" = Option.some fa → e "SECRET_KEY" = Option.some sk →
      e "KERKO_ZOTERO_API_KEY" = Option.some ak →
      e "KERKO_ZOTERO_LIBRARY_ID" = Option.some li →
      e "KERKO_ZOTERO_LIBRARY_TYPE" = Option.some lt →
      e "KERKO_DATA_DIR" = Option.none →
      ∃ c, mkConfig e = Except.ok c ∧
        c.KERKO_DATA_DIR = parentDir fa ++ "/data/kerko")
    ∧ (∀ k, k ∈ requiredEnvKeys → ∀ e : String → Option String,
        e k = Option.none → ∀ c, mkConfig e ≠ Except.ok c) := by
  constructor
  · intro e fa sk ak li lt hF hS hA hL hT hD
    unfold mkConfig
    rw [hF, hS, hA, hL, hT, hD]
    exact ⟨_, rfl, rfl⟩
  · intro k hk e hke c hmk
    obtain ⟨h1, h2, h3, h4, h5, -⟩ := mkConfig_ok_elim hmk
    simp only [requiredEnvKeys, List.mem_cons, List.mem_singleton] at hk
    rcases hk with rfl | rfl | rfl | rfl | rfl | h
    · rw [hke] at h1; exact absurd h1 (by simp)
    · rw [hke] at h2; exact absurd h2 (by simp)
    · rw [hke] at h3; exact absurd h3 (by simp)
    · rw [hke] at h4; exact absurd h4 (by simp)
    · rw [hke] at h5; exact absurd h5 (by simp)
    · exact absurd h (List.not_mem_nil _)

theorem data_dir_default_witness :
    ∃ c, mkConfig envExample = Except.ok c ∧
      c.KERKO_DATA_DIR = parentDir "app/wsgi.py" ++ "/data/kerko" :=
  data_dir_default.1 envExample "app/wsgi.py" "s3cret" "apikey" "123456" "group"
    rfl rfl rfl rfl rfl rfl

/-- Claim C7: configuration construction is deterministic — two
environments that agree on the variables the `Config` class reads produce
equal configuration objects, and every produced configuration carries the
same composer, with the same registered field keys, facet keys, badge keys
and sort keys in the same order. -/
theorem config_deterministic :
    (∀ e1 e2 : String → Option String,
      (∀ k, k ∈ configEnvKeys → e1 k = e2 k) → mkConfig e1 = mkConfig e2)
    ∧ (∀ (e : String → Option String) c, mkConfig e = Except.ok c →
        c.KERKO_COMPOSER.fieldKeys =
          kerkoDefaultFieldKeys ++ ["data", "preview", "edtechhub", "_boost"] ∧
        c.KERKO_COMPOSER.facets.map FacetSpec.facetKey =
          facetList.map FacetSpec.facetKey ∧
        c.KERKO_COMPOSER.badges.map BadgeSpec.key = ["edtechhub"] ∧
        c.KERKO_COMPOSER.sorts.map SortSpec.key = ["hub_desc"]) := by
  constructor
  · intro e1 e2 h
    have hF := h "FLASK_APP" (by simp [configEnvKeys, requiredEnvKeys])
    have hS := h "SECRET_KEY" (by simp [configEnvKeys, requiredEnvKeys])
    have hA := h "KERKO_ZOTERO_API_KEY" (by simp [configEnvKeys, requiredEnvKeys])
    have hL := h "KERKO_ZOTERO_LIBRARY_ID" (by simp [configEnvKeys, requiredEnvKeys])
    have hT := h "KERKO_ZOTERO_LIBRARY_TYPE" (by simp [configEnvKeys, requiredEnvKeys])
    have hD := h "KERKO_DATA_DIR" (by simp [configEnvKeys, requiredEnvKeys])
    unfold mkConfig
    rw [hF, hS, hA, hL, hT, hD]
  · intro e c hmk
    have hc := (mkConfig_ok_elim hmk).2.2.2.2.2
    rw [hc]
    exact ⟨rfl, rfl, rfl, rfl⟩

theorem config_deterministic_witness :
    mkConfig envExample =
      mkConfig (fun k => if k = "IRRELEVANT_VARIABLE" then Option.some "x" else envExample k) :=
  config_deterministic.1 _ _ (by decide)

/-- Claim C3: every facet registered with the composer is a collection
facet with a fixed collection identifier independent of the environment;
there are twelve facets, with pairwise-distinct facet keys and
pairwise-distinct collection keys. -/
theorem facets_are_twelve_distinct_collections :
    (∀ (e : String → Option String) c, mkConfig e = Except.ok c →
      c.KERKO_COMPOSER.facets = facetList)
    ∧ facetList.length = 12
    ∧ (∀ f, f ∈ facetList → f.isCollection = true)
    ∧ (facetList.map FacetSpec.facetKey).Nodup
    ∧ (facetList.filterMap FacetSpec.collectionKey?).length = 12
    ∧ (facetList.filterMap FacetSpec.collectionKey?).Nodup := by
  refine ⟨?_, by decide, by decide, by decide, by decide, by decide⟩
  intro e c hmk
  rw [(mkConfig_ok_elim hmk).2.2.2.2.2]
  exact rfl

theorem facets_are_twelve_distinct_collections_witness :
    ∃ c, mkConfig envExample = Except.ok c ∧ c.KERKO_COMPOSER.facets = facetList :=
  ⟨_, rfl, facets_are_twelve_distinct_collections.1 envExample _ rfl⟩

/-- Claim C6: the `edtechhub` badge activator returns the Python
truthiness of the item's stored `edtechhub` value, so the badge is active
iff that value is truthy, and an item lacking the field does not activate
the badge. -/
theorem edtechhub_badge_activation (item : String → PyVal) :
    edtechhubBadge.activator edtechhubBadge.field item = (item "edtechhub").truthy
    ∧ (item "edtechhub" = PyVal.none →
        edtechhubBadge.activator edtechhubBadge.field item = false) := by
  refine ⟨rfl, fun h => ?_⟩
  simp [edtechhubBadge, h, PyVal.truthy]

theorem edtechhub_badge_activation_witness :
    edtechhubBadge.activator edtechhubBadge.field (fun _ => PyVal.none) = false :=
  (edtechhub_badge_activation (fun _ => PyVal.none)).2 rfl

/-- Claim C10: the `hub_desc` sort option orders by the `edtechhub` flag,
`sort_date`, `sort_creator` and `sort_title`, in that order, with only the
date key descending. -/
theorem hub_desc_sort_keys :
    theComposer.sorts = [hubDescSort]
    ∧ hubDescSort.key = "hub_desc"
    ∧ hubDescSort.fieldKeys.zip hubDescSort.reverse =
        [("edtechhub", false), ("sort_date", true),
         ("sort_creator", false), ("sort_title", false)] := by
  exact ⟨rfl, rfl, by decide⟩

/-! ## The preview transformers -/

theorem hasSuffix_append (suf w : List Char) : hasSuffix suf (w ++ suf) = true := by
  unfold hasSuffix
  rw [List.reverse_append, List.isPrefixOf_iff_prefix]
  exact List.prefix_append _ _

theorem dropLastN_append (suf w : List Char) (n : Nat) (hn : n = suf.length) :
    dropLastN n (w ++ suf) = w := by
  subst hn
  unfold dropLastN
  rw [List.reverse_append, ← List.length_reverse suf, List.drop_left, List.reverse_reverse]

theorem hasSuffix_span_of_newline (w : List Char) :
    hasSuffix ("</span>".toList) (w ++ "</span>\n".toList) = false := by
  unfold hasSuffix
  rw [List.reverse_append]
  rw [show ("</span>\n".toList).reverse = '\n' :: ("</span>".toList).reverse from rfl]
  rw [show ("</span>".toList).reverse = '>' :: ("</span".toList).reverse from rfl]
  simp [List.isPrefixOf_cons₂]

/-- Claim C5, counterexample: the string `x</span>\n` neither starts with
`<span>` nor ends with `</span>`, yet the preview transformers change it
(Python's `$` also matches just before a string-final newline), so the
claim "a string with neither prefix nor suffix is returned unchanged" is
false as stated. -/
theorem preview_unchanged_counterexample :
    ("<span>".toList).isPrefixOf ("x</span>\n".toList) = false
    ∧ hasSuffix ("</span>".toList) ("x</span>\n".toList) = false
    ∧ previewTransform ("x</span>\n".toList) ≠ "x</span>\n".toList
    ∧ previewTransform ("x</span>\n".toList) = "x</div>\n".toList := by
  refine ⟨by decide, by decide, ?_, by decide⟩
  decide

/-- Claim C5, amended: the registered transformers replace a leading
`<span>` prefix (if present) with `<div class="csl-entry">` and a trailing
`</span>` — at the very end of the string or immediately before a
string-final newline — with `</div>`, each replacement performed at most
once; a string with no leading `<span>` and no such trailing `</span>` is
returned unchanged. -/
theorem preview_replaces_span_wrappers :
    (∀ v : List Char,
      ("<span>".toList).isPrefixOf v = false →
      hasSuffix ("</span>".toList) v = false →
      hasSuffix ("</span>\n".toList) v = false →
      previewTransform v = v)
    ∧ (∀ s : List Char,
        subSpanOpen ("<span>".toList ++ s) = "<div class=\"csl-entry\">".toList ++ s)
    ∧ (∀ v : List Char, ("<span>".toList).isPrefixOf v = false → subSpanOpen v = v)
    ∧ (∀ w : List Char,
        subSpanClose (w ++ "</span>".toList) = w ++ "</div>".toList)
    ∧ (∀ w : List Char,
        subSpanClose (w ++ "</span>\n".toList) = w ++ "</div>\n".toList) := by
  have hopen : ∀ s : List Char,
      subSpanOpen ("<span>".toList ++ s) = "<div class=\"csl-entry\">".toList ++ s := by
    intro s
    have hp : ("<span>".toList).isPrefixOf ("<span>".toList ++ s) = true := by
      rw [List.isPrefixOf_iff_prefix]
      exact List.prefix_append _ _
    rw [subSpanOpen, if_pos hp,
      show (6 : Nat) = ("<span>".toList).length from rfl, List.drop_left]
  refine ⟨?_, hopen, ?_, ?_, ?_⟩
  · intro v h1 h2 h3
    unfold previewTransform subSpanOpen subSpanClose
    rw [h1]
    simp only [Bool.false_eq_true, if_false, h2, h3]
  · intro v h
    unfold subSpanOpen
    rw [h]
    simp
  · intro w
    rw [subSpanClose, if_pos (hasSuffix_append _ _),
      dropLastN_append ("</span>".toList) w 7 rfl]
  · intro w
    rw [subSpanClose, if_neg ?_, if_pos (hasSuffix_append _ _),
      dropLastN_append ("</span>\n".toList) w 8 rfl]
    rw [hasSuffix_span_of_newline]
    exact Bool.false_ne_true

theorem preview_replaces_span_wrappers_witness :
    previewTransform ("plain text".toList) = "plain text".toList :=
  preview_replaces_span_wrappers.1 ("plain text".toList) (by decide) (by decide) (by decide)

/-! ## Characterization of the shortDOI matcher -/

theorem stripCI_eq_some (pat : List Char) :
    ∀ s r : List Char, stripCI pat s = Option.some r ↔
      ∃ pre, s = pre ++ r ∧ pre.map Char.toLower = pat := by
  induction pat with
  | nil =>
    intro s r
    simp only [stripCI, Option.some.injEq, List.map_eq_nil_iff]
    constructor
    · rintro rfl
      exact ⟨[], rfl, rfl⟩
    · rintro ⟨pre, h1, rfl⟩
      simpa using h1
  | cons p ps ih =>
    intro s r
    cases s with
    | nil =>
      simp only [stripCI]
      constructor
      · intro h
        exact absurd h (by simp)
      · rintro ⟨pre, h1, h2⟩
        cases pre with
        | nil => simp at h2
        | cons a t => simp at h1
    | cons c cs =>
      simp only [stripCI]
      by_cases hc : c.toLower = p
      · rw [if_pos hc, ih]
        constructor
        · rintro ⟨pre, rfl, h2⟩
          exact ⟨c :: pre, rfl, by simp [hc, h2]⟩
        · rintro ⟨pre, h1, h2⟩
          cases pre with
          | nil => simp at h2
          | cons a t =>
            simp only [List.map_cons, List.cons.injEq] at h2
            simp only [List.cons_append, List.cons.injEq] at h1
            exact ⟨t, h1.2, h2.2⟩
      · rw [if_neg hc]
        constructor
        · intro h
          exact absurd h (by simp)
        · rintro ⟨pre, h1, h2⟩
          cases pre with
          | nil => simp at h2
          | cons a t =>
            simp only [List.map_cons, List.cons.injEq] at h2
            simp only [List.cons_append, List.cons.injEq] at h1
            exact absurd (h1.1 ▸ h2.1) hc

theorem takeWhile_all {α : Type} (p : α → Bool) (l : List α) :
    (l.takeWhile p).all p = true := by
  induction l with
  | nil => rfl
  | cons a t ih =>
    by_cases h : p a = true
    · simp [List.takeWhile_cons, h, ih]
    · simp [List.takeWhile_cons, h]

theorem isSpace_cases {c : Char} (h : isSpace c = true) :
    c = ' ' ∨ c = '\t' ∨ c = '\n' ∨ c = '\r' ∨ c = '\x0b' ∨ c = '\x0c' := by
  have h' := h
  simp only [isSpace, Bool.or_eq_true, decide_eq_true_eq] at h'
  tauto

theorem not_space_of_toLower_s {c : Char} (h : c.toLower = 's') : isSpace c = false := by
  cases hs : isSpace c
  · rfl
  · rcases isSpace_cases hs with rfl | rfl | rfl | rfl | rfl | rfl <;>
      exact absurd h (by decide)

theorem dropWhile_space_of_all {w : List Char} (hw : w.all isSpace = true)
    (r : List Char) : (w ++ r).dropWhile isSpace = r.dropWhile isSpace := by
  exact List.dropWhile_append_of_pos (by simpa [List.all_eq_true] using hw)

theorem dropWhile_cons_false {p : Char → Bool} {c : Char} (hc : p c = false)
    (r : List Char) : (c :: r).dropWhile p = c :: r := by
  simp [List.dropWhile_cons, hc]

theorem takeWhile_nil_of_all_space {w : List Char} (hw : w.all isSpace = true) :
    w.takeWhile nonSpace = [] := by
  cases w with
  | nil => rfl
  | cons a t =>
    simp only [List.all_cons, Bool.and_eq_true] at hw
    simp [List.takeWhile_cons, nonSpace, hw.1]

theorem dropWhile_nonspace_of_all_space {w : List Char} (hw : w.all isSpace = true) :
    w.dropWhile nonSpace = w := by
  cases w with
  | nil => rfl
  | cons a t =>
    simp only [List.all_cons, Bool.and_eq_true] at hw
    simp [List.dropWhile_cons, nonSpace, hw.1]

/-- A single line is of the `shortDOI: <t>` form exactly when it
decomposes into optional whitespace, the literal `shortDOI` up to case,
optional whitespace, a colon, optional whitespace, one non-empty
whitespace-free token, and optional trailing whitespace. -/
theorem shortDOIMatch_iff :
    ∀ line t : List Char,
      shortDOIMatch line = Option.some t ↔
        ∃ w1 s w2 w3 w4 : List Char,
          line = w1 ++ s ++ w2 ++ ':' :: (w3 ++ t ++ w4)
          ∧ w1.all isSpace = true
          ∧ s.map Char.toLower = "shortdoi".toList
          ∧ w2.all isSpace = true
          ∧ w3.all isSpace = true
          ∧ w4.all isSpace = true
          ∧ t ≠ []
          ∧ t.all nonSpace = true := by
  intro line t
  constructor
  · intro h
    unfold shortDOIMatch at h
    cases h1 : stripCI ("shortdoi".toList) (line.dropWhile isSpace) with
    | none => rw [h1] at h; simp at h
    | some r1 =>
      rw [h1] at h
      simp only [Option.some_bind] at h
      cases h2 : r1.dropWhile isSpace with
      | nil => rw [h2] at h; simp [colonCheck] at h
      | cons a r3 =>
        rw [h2] at h
        simp only [colonCheck] at h
        by_cases ha : a = ':'
        · subst ha
          rw [if_pos rfl] at h
          unfold tokenCheck at h
          by_cases he : ((r3.dropWhile isSpace).takeWhile nonSpace).isEmpty = true
          · rw [if_pos he] at h
            exact absurd h (by simp)
          · rw [if_neg he] at h
            by_cases hrr : ((r3.dropWhile isSpace).dropWhile nonSpace).all isSpace = true
            · rw [if_pos hrr] at h
              injection h with ht
              obtain ⟨pre, hpre, hmap⟩ := (stripCI_eq_some _ _ _).mp h1
              have htall : t.all nonSpace = true := by
                rw [← ht]; exact takeWhile_all _ _
              have htne : t ≠ [] := by
                intro hnil
                apply he
                rw [ht, hnil]
                rfl
              have hr4 : r3.dropWhile isSpace =
                  t ++ (r3.dropWhile isSpace).dropWhile nonSpace := by
                conv_lhs =>
                  rw [← List.takeWhile_append_dropWhile nonSpace (r3.dropWhile isSpace), ht]
              generalize hw4g : (r3.dropWhile isSpace).dropWhile nonSpace = w4 at hrr hr4
              have hr1 : r1 = r1.takeWhile isSpace ++ (':' :: r3) := by
                conv_lhs => rw [← List.takeWhile_append_dropWhile isSpace r1, h2]
              have hr3 : r3 = r3.takeWhile isSpace ++ (t ++ w4) := by
                conv_lhs => rw [← List.takeWhile_append_dropWhile isSpace r3, hr4]
              have hline : line = line.takeWhile isSpace ++ (pre ++ r1) := by
                conv_lhs => rw [← List.takeWhile_append_dropWhile isSpace line, hpre]
              refine ⟨line.takeWhile isSpace, pre, r1.takeWhile isSpace,
                r3.takeWhile isSpace, w4, ?_, takeWhile_all _ _, hmap,
                takeWhile_all _ _, takeWhile_all _ _, hrr, htne, htall⟩
              calc line
                  = line.takeWhile isSpace ++ (pre ++ r1) := hline
                _ = line.takeWhile isSpace ++
                      (pre ++ (r1.takeWhile isSpace ++ (':' :: r3))) := by
                    conv_lhs => rw [hr1]
                _ = line.takeWhile isSpace ++
                      (pre ++ (r1.takeWhile isSpace ++
                        (':' :: (r3.takeWhile isSpace ++ (t ++ w4))))) := by
                    conv_lhs => rw [hr3]
                _ = line.takeWhile isSpace ++ pre ++ r1.takeWhile isSpace ++
                      ':' :: (r3.takeWhile isSpace ++ t ++ w4) := by
                    simp [List.append_assoc]
            · rw [if_neg hrr] at h
              exact absurd h (by simp)
        · rw [if_neg ha] at h
          exact absurd h (by simp)
  · rintro ⟨w1, s, w2, w3, w4, rfl, hw1, hs, hw2, hw3, hw4, htne, htall⟩
    obtain ⟨c0, s', rfl⟩ : ∃ c0 s', s = c0 :: s' := by
      cases s with
      | nil => exact absurd hs (by decide)
      | cons a b => exact ⟨a, b, rfl⟩
    obtain ⟨c1, t', rfl⟩ : ∃ c1 t', t = c1 :: t' := by
      cases t with
      | nil => exact absurd rfl htne
      | cons a b => exact ⟨a, b, rfl⟩
    have hs' := hs
    rw [show "shortdoi".toList = 's' :: "hortdoi".toList from rfl] at hs
    simp only [List.map_cons, List.cons.injEq] at hs
    have hc0 : isSpace c0 = false := not_space_of_toLower_s hs.1
    have hc1 : isSpace c1 = false := by
      have hall := htall
      simp only [List.all_cons, Bool.and_eq_true] at hall
      simpa [nonSpace] using hall.1
    unfold shortDOIMatch
    have hdrop1 : ((w1 ++ (c0 :: s') ++ w2 ++ ':' :: (w3 ++ (c1 :: t') ++ w4)).dropWhile isSpace)
        = c0 :: (s' ++ (w2 ++ ':' :: (w3 ++ (c1 :: t' ++ w4)))) := by
      simp only [List.append_assoc, List.cons_append]
      rw [dropWhile_space_of_all hw1, dropWhile_cons_false hc0]
    rw [hdrop1]
    have hstrip : stripCI ("shortdoi".toList)
        (c0 :: (s' ++ (w2 ++ ':' :: (w3 ++ (c1 :: t' ++ w4)))))
        = Option.some (w2 ++ ':' :: (w3 ++ (c1 :: t' ++ w4))) :=
      (stripCI_eq_some _ _ _).mpr ⟨c0 :: s', by simp, hs'⟩
    rw [hstrip]
    simp only [Option.some_bind]
    have hdrop2 : ((w2 ++ ':' :: (w3 ++ (c1 :: t' ++ w4))).dropWhile isSpace)
        = ':' :: (w3 ++ (c1 :: t' ++ w4)) := by
      rw [dropWhile_space_of_all hw2, dropWhile_cons_false (by decide)]
    rw [hdrop2]
    simp only [colonCheck, if_true]
    have hdrop3 : ((w3 ++ (c1 :: t' ++ w4)).dropWhile isSpace) = c1 :: (t' ++ w4) := by
      simp only [List.cons_append]
      rw [dropWhile_space_of_all hw3, dropWhile_cons_false hc1]
    rw [hdrop3]
    unfold tokenCheck
    have htk : (c1 :: (t' ++ w4)).takeWhile nonSpace = c1 :: t' := by
      rw [show c1 :: (t' ++ w4) = (c1 :: t') ++ w4 from rfl,
        List.takeWhile_append_of_pos (by simpa using List.all_eq_true.mp htall),
        takeWhile_nil_of_all_space hw4, List.append_nil]
    have hdk : (c1 :: (t' ++ w4)).dropWhile nonSpace = w4 := by
      rw [show c1 :: (t' ++ w4) = (c1 :: t') ++ w4 from rfl,
        List.dropWhile_append_of_pos (by simpa using List.all_eq_true.mp htall),
        dropWhile_nonspace_of_all_space hw4]
    rw [htk, hdk, if_neg (by simp), if_pos hw4]

/-! ## The extractors over the whole multi-line text -/

theorem take_one_of_head {α : Type} {l : List α} {v : α}
    (h : l.head? = Option.some v) : l.take 1 = [v] := by
  cases l with
  | nil => simp at h
  | cons a t =>
    simp only [List.head?_cons, Option.some.injEq] at h
    subst h
    simp

theorem altIds_first_capture (tryM : List Char → Option (List Char × List Char))
    (sep : Char) (t v : List Char)
    (h : (findAllCaptures tryM t).head? = Option.some v) :
    splitValues sep (findMatches tryM 1 t) = splitOnChar sep v := by
  unfold findMatches
  rw [if_neg (by decide), take_one_of_head h]
  simp [splitValues]

theorem reMatches_succ (tryM : List Char → Option (List Char × List Char))
    (fuel : Nat) (text : List Char) :
    reMatches tryM (fuel + 1) text =
      match tryM text with
      | Option.some (cap, rest) =>
        cap ::
          (match nextLine rest with
           | Option.some r => reMatches tryM fuel r
           | Option.none => [])
      | Option.none =>
        match nextLine text with
        | Option.some r => reMatches tryM fuel r
        | Option.none => [] := rfl

theorem nextLine_eq_none {l : List Char} (h : ∀ c, c ∈ l → c ≠ '\n') :
    nextLine l = Option.none := by
  induction l with
  | nil => rfl
  | cons c cs ih =>
    simp only [nextLine]
    rw [if_neg (h c (List.mem_cons_self c cs))]
    exact ih (fun x hx => h x (List.mem_cons_of_mem c hx))

theorem afterLastNewline_eq_none {l : List Char} :
    afterLastNewline l = Option.none ↔ (∀ c, c ∈ l → c ≠ '\n') := by
  induction l with
  | nil => simp [afterLastNewline]
  | cons c cs ih =>
    simp only [afterLastNewline]
    split
    · rename_i r h
      constructor
      · intro hh
        exact absurd hh (by simp)
      · intro hall
        exfalso
        have hn : afterLastNewline cs = Option.none :=
          ih.mpr (fun x hx => hall x (List.mem_cons_of_mem c hx))
        rw [hn] at h
        exact Option.noConfusion h
    · rename_i h
      by_cases hc : c = '\n'
      · rw [if_pos hc]
        constructor
        · intro hh
          exact absurd hh (by simp)
        · intro hall
          exact absurd hc (hall c (List.mem_cons_self c cs))
      · rw [if_neg hc]
        constructor
        · intro _ x hx
          rcases List.mem_cons.mp hx with rfl | hx'
          · exact hc
          · exact ih.mp h x hx'
        · intro _
          rfl

theorem no_newline_dropWhile (p : Char → Bool) {l : List Char}
    (h : ∀ c, c ∈ l → c ≠ '\n') : ∀ c, c ∈ l.dropWhile p → c ≠ '\n' :=
  fun c hc => h c ((List.dropWhile_suffix p).subset hc)

theorem no_newline_takeWhile (p : Char → Bool) {l : List Char}
    (h : ∀ c, c ∈ l → c ≠ '\n') : ∀ c, c ∈ l.takeWhile p → c ≠ '\n' :=
  fun c hc => h c ((List.takeWhile_prefix p).subset hc)

theorem no_newline_stripCI {pat s r : List Char} (h : ∀ c, c ∈ s → c ≠ '\n')
    (hs : stripCI pat s = Option.some r) : ∀ c, c ∈ r → c ≠ '\n' := by
  obtain ⟨pre, heq, -⟩ := (stripCI_eq_some pat s r).mp hs
  intro c hc
  exact h c (by rw [heq]; exact List.mem_append_right pre hc)

theorem tailCheck_no_newline {rest : List Char} (hno : ∀ c, c ∈ rest → c ≠ '\n') :
    tailCheck rest = if rest.all isSpace then Option.some [] else Option.none := by
  unfold tailCheck
  by_cases hd : rest.dropWhile isSpace = []
  · have hall : rest.all isSpace = true := by
      rw [List.all_eq_true]
      exact List.dropWhile_eq_nil_iff.mp hd
    rw [if_pos hd, if_pos hall]
  · have h1 : afterLastNewline (rest.takeWhile isSpace) = Option.none :=
      afterLastNewline_eq_none.mpr (no_newline_takeWhile isSpace hno)
    have hall : ¬ rest.all isSpace = true := by
      intro hall
      exact hd (List.dropWhile_eq_nil_iff.mpr (List.all_eq_true.mp hall))
    rw [if_neg hd, h1, if_neg hall]

theorem tryShortDOI_no_newline {line : List Char} (hno : ∀ c, c ∈ line → c ≠ '\n') :
    tryShortDOI line = (shortDOIMatch line).map (fun t => (t, ([] : List Char))) := by
  unfold tryShortDOI shortDOIMatch
  cases h1 : stripCI ("shortdoi".toList) (line.dropWhile isSpace) with
  | none => simp
  | some r1 =>
    simp only [Option.some_bind]
    have hnoR1 : ∀ c, c ∈ r1 → c ≠ '\n' :=
      no_newline_stripCI (no_newline_dropWhile isSpace hno) h1
    cases h2 : r1.dropWhile isSpace with
    | nil => simp [colonCheckWhole, colonCheck]
    | cons a r3 =>
      have hnoR3 : ∀ c, c ∈ r3 → c ≠ '\n' := fun c hc => by
        refine no_newline_dropWhile isSpace hnoR1 c ?_
        rw [h2]
        exact List.mem_cons_of_mem a hc
      simp only [colonCheckWhole, colonCheck]
      by_cases ha : a = ':'
      · rw [if_pos ha, if_pos ha]
        have hnoRest : ∀ c, c ∈ (r3.dropWhile isSpace).dropWhile nonSpace → c ≠ '\n' :=
          no_newline_dropWhile nonSpace (no_newline_dropWhile isSpace hnoR3)
        unfold tokenCheckWhole tokenCheck
        by_cases he : ((r3.dropWhile isSpace).takeWhile nonSpace).isEmpty = true
        · rw [if_pos he, if_pos he]
          rfl
        · rw [if_neg he, if_neg he, tailCheck_no_newline hnoRest]
          by_cases hall : ((r3.dropWhile isSpace).dropWhile nonSpace).all isSpace = true
          · rw [if_pos hall, if_pos hall]
            rfl
          · rw [if_neg hall, if_neg hall]
            rfl
      · rw [if_neg ha, if_neg ha]
        rfl

theorem tryShortDOI_token {text cap rest : List Char}
    (h : tryShortDOI text = Option.some (cap, rest)) :
    cap ≠ [] ∧ cap.all nonSpace = true := by
  unfold tryShortDOI at h
  cases h1 : stripCI ("shortdoi".toList) (text.dropWhile isSpace) with
  | none => rw [h1] at h; simp at h
  | some r1 =>
    rw [h1] at h
    simp only [Option.some_bind] at h
    cases h2 : r1.dropWhile isSpace with
    | nil => rw [h2] at h; simp [colonCheckWhole] at h
    | cons a r3 =>
      rw [h2] at h
      simp only [colonCheckWhole] at h
      by_cases ha : a = ':'
      · rw [if_pos ha] at h
        unfold tokenCheckWhole at h
        by_cases he : ((r3.dropWhile isSpace).takeWhile nonSpace).isEmpty = true
        · rw [if_pos he] at h
          exact absurd h (by simp)
        · rw [if_neg he] at h
          split at h
          · rename_i rest2 h3
            injection h with h4
            rw [Prod.mk.injEq] at h4
            obtain ⟨h5, -⟩ := h4
            constructor
            · intro hnil
              apply he
              rw [h5, hnil]
              rfl
            · rw [← h5]
              exact takeWhile_all _ _
          · exact absurd h (by simp)
      · rw [if_neg ha] at h
        exact absurd h (by simp)

theorem shortdoi_capture_wf :
    ∀ (fuel : Nat) (text t : List Char),
      t ∈ reMatches tryShortDOI fuel text → t ≠ [] ∧ t.all nonSpace = true := by
  intro fuel
  induction fuel with
  | zero =>
    intro text t ht
    simp [reMatches] at ht
  | succ f ih =>
    intro text t ht
    rw [reMatches_succ] at ht
    split at ht
    · rename_i cap rest h
      rw [List.mem_cons] at ht
      rcases ht with rfl | htail
      · exact tryShortDOI_token h
      · split at htail
        · rename_i r h2
          exact ih r t htail
        · simp at htail
    · rename_i h
      split at ht
      · rename_i r h2
        exact ih r t ht
      · simp at ht

theorem shortDOIAltIds_single_line :
    ∀ line : List Char, (∀ c, c ∈ line → c ≠ '\n') →
      shortDOIAltIds line = (shortDOIMatch line).toList := by
  intro line hno
  have hm := tryShortDOI_no_newline hno
  unfold shortDOIAltIds findMatches findAllCaptures
  rw [if_pos rfl, reMatches_succ]
  cases hS : shortDOIMatch line with
  | none =>
    rw [hS] at hm
    simp only [Option.map_none'] at hm
    rw [hm, nextLine_eq_none hno]
    rfl
  | some t =>
    rw [hS] at hm
    simp only [Option.map_some'] at hm
    rw [hm]
    rfl

/-- Claim C1: the `KerkoCite.ItemAlsoKnownAs` extractor isolates the
identifier substring captured after the colon by the first match of its
pattern and returns it split on single spaces; in particular an Extra text
whose only matching line is `KerkoCite.ItemAlsoKnownAs: 10.1/xyz` yields
`["10.1/xyz"]`, whether the line stands alone or amid other lines. -/
theorem kerkocite_extractor_splits_on_spaces :
    (∀ t v : List Char, (findAllCaptures tryKerkoCite t).head? = Option.some v →
      kerkoCiteAltIds t = splitOnChar ' ' v)
    ∧ kerkoCiteAltIds ("KerkoCite.ItemAlsoKnownAs: 10.1/xyz".toList) = ["10.1/xyz".toList]
    ∧ kerkoCiteAltIds ("note\nKerkoCite.ItemAlsoKnownAs: 10.1/xyz\ntail".toList)
        = ["10.1/xyz".toList] := by
  refine ⟨?_, by decide, by decide⟩
  intro t v h
  unfold kerkoCiteAltIds
  exact altIds_first_capture _ ' ' t v h

theorem kerkocite_extractor_splits_on_spaces_witness :
    kerkoCiteAltIds ("line one\nKerkoCite.ItemAlsoKnownAs: 10.1/abc 10.2/de".toList) =
      splitOnChar ' ' ("10.1/abc 10.2/de".toList) :=
  kerkocite_extractor_splits_on_spaces.1 _ ("10.1/abc 10.2/de".toList) (by decide)

/-- Claim C8, counterexample: both lines of
`EdTechHub.ItemAlsoKnownAs:\nEdTechHub.ItemAlsoKnownAs: x` are of the
`EdTechHub.ItemAlsoKnownAs: <value>` line form (the first with value ``),
but the extractor does not return the first line's value split on `;`
(which would be `[""]`): the `\s*` after the first colon consumes the
newline, so the first match captures the entire second line.  The claim's
"uses only the first matching line" is therefore false as stated. -/
theorem itemalsoknownas_first_line_counterexample :
    edTechHubLineMatch ("EdTechHub.ItemAlsoKnownAs:".toList) = Option.some []
    ∧ edTechHubLineMatch ("EdTechHub.ItemAlsoKnownAs: x".toList) = Option.some ("x".toList)
    ∧ edTechHubAltIds ("EdTechHub.ItemAlsoKnownAs:\nEdTechHub.ItemAlsoKnownAs: x".toList)
        = ["EdTechHub.ItemAlsoKnownAs: x".toList]
    ∧ edTechHubAltIds ("EdTechHub.ItemAlsoKnownAs:\nEdTechHub.ItemAlsoKnownAs: x".toList)
        ≠ splitOnChar ';' [] := by
  exact ⟨by decide, by decide, by decide, by decide⟩

/-- Claim C8 (amended): with `max_matches=1`, each `ItemAlsoKnownAs`
extractor uses only the first match of its pattern and ignores all later
matches; the `EdTechHub` variant splits the first match's captured value
on `;` and the `KerkoCite` variant splits it on a space.  Since the
pattern's whitespace can cross line breaks, the first match's value may
lie on the line after the tag; when the matching lines are self-contained,
the first matching line's value determines the result, as in the two
concrete two-match texts below. -/
theorem alternate_id_first_match_only :
    (∀ t v : List Char, (findAllCaptures tryEdTechHub t).head? = Option.some v →
      edTechHubAltIds t = splitOnChar ';' v)
    ∧ (∀ t v : List Char, (findAllCaptures tryKerkoCite t).head? = Option.some v →
      kerkoCiteAltIds t = splitOnChar ' ' v)
    ∧ edTechHubAltIds ("EdTechHub.ItemAlsoKnownAs: a;b\nEdTechHub.ItemAlsoKnownAs: zz".toList)
        = ["a".toList, "b".toList]
    ∧ kerkoCiteAltIds ("KerkoCite.ItemAlsoKnownAs: c d\nKerkoCite.ItemAlsoKnownAs: zz".toList)
        = ["c".toList, "d".toList] := by
  refine ⟨?_, ?_, by decide, by decide⟩
  · intro t v h
    unfold edTechHubAltIds
    exact altIds_first_capture _ ';' t v h
  · intro t v h
    unfold kerkoCiteAltIds
    exact altIds_first_capture _ ' ' t v h

theorem alternate_id_first_match_only_witness :
    edTechHubAltIds ("x\nEdTechHub.ItemAlsoKnownAs: p;q\nEdTechHub.ItemAlsoKnownAs: r".toList)
      = splitOnChar ';' ("p;q".toList) :=
  alternate_id_first_match_only.1 _ ("p;q".toList) (by decide)

/-- Claim C4, counterexample: on `shortDOI:\n y` the `\s*` after the colon
crosses the newline, so the extractor returns the token `y` although no
single line of the text is of the `shortDOI: <t>` form — refuting "one
token per matching line; lines not of that form contribute nothing". -/
theorem shortdoi_per_line_counterexample :
    shortDOIAltIds ("shortDOI:\n y".toList) = ["y".toList]
    ∧ (∀ l, l ∈ textLines ("shortDOI:\n y".toList) → shortDOIMatch l = Option.none) := by
  exact ⟨by decide, by decide⟩

/-- Claim C4 (amended): the `shortDOI` extractor returns exactly the
captured tokens of the matches of `^\s*shortDOI\s*:\s*(\S+)\s*$` over the
whole Extra text (matched case-insensitively), one per match in order,
with no limit on the number of matches (`max_matches=0`); every returned
token is a non-empty whitespace-free string.  The pattern's whitespace may
cross line breaks, so a token may lie on the line after the `shortDOI:`
tag; on a newline-free text the extractor returns exactly the token of a
line of the `shortDOI: <t>` form and nothing otherwise, where that form is
characterized by the final decomposition clause. -/
theorem shortdoi_extractor_whole_text :
    (∀ extra : List Char, shortDOIAltIds extra = findAllCaptures tryShortDOI extra)
    ∧ (∀ extra t : List Char, t ∈ shortDOIAltIds extra → t ≠ [] ∧ t.all nonSpace = true)
    ∧ (∀ line : List Char, (∀ c, c ∈ line → c ≠ '\n') →
        shortDOIAltIds line = (shortDOIMatch line).toList)
    ∧ (∀ line t : List Char,
        shortDOIMatch line = Option.some t ↔
          ∃ w1 s w2 w3 w4 : List Char,
            line = w1 ++ s ++ w2 ++ ':' :: (w3 ++ t ++ w4)
            ∧ w1.all isSpace = true
            ∧ s.map Char.toLower = "shortdoi".toList
            ∧ w2.all isSpace = true
            ∧ w3.all isSpace = true
            ∧ w4.all isSpace = true
            ∧ t ≠ []
            ∧ t.all nonSpace = true) := by
  refine ⟨?_, ?_, shortDOIAltIds_single_line, shortDOIMatch_iff⟩
  · intro extra
    unfold shortDOIAltIds findMatches
    rw [if_pos rfl]
  · intro extra t ht
    unfold shortDOIAltIds findMatches findAllCaptures at ht
    rw [if_pos rfl] at ht
    exact shortdoi_capture_wf _ _ t ht

theorem shortdoi_extractor_whole_text_witness :
    shortDOIAltIds ("shortDOI: 10/abc".toList) =
      (shortDOIMatch ("shortDOI: 10/abc".toList)).toList :=
  shortdoi_extractor_whole_text.2.2.1 ("shortDOI: 10/abc".toList) (by decide)
